import Mathlib

/-!
Verification of the artifact-staging workflow of `apache_beam`'s portability
`stager.py` and of the container license-collection script
`pull_licenses_py.py`, via a shallow embedding in Lean 4.

Modelling conventions:
* paths and URLs are `String`s; `basename p` is the text after the last `'/'`
  (os.path.basename / the second component of `FileSystems.split` — for the
  paths handled here, local files and URL-style remote paths, the two agree);
* the file system is a list of paths that exist as regular files;
* side effects (staging an artifact, downloading a URL, removing a temp
  directory, committing the manifest) are recorded in an event trace;
* `os.listdir` on a freshly created staging temp directory is modelled as
  returning the downloaded files in download order (the real listing order is
  unspecified; download order is one consistent realization);
* fallible Python code is embedded as `Except String`; an exception raised by
  a callee propagates as `.error`.
-/

namespace BeamStager

/-! ## Path and string helpers -/

/-- Characters after the last `'/'` of a character list (the whole list when
no `'/'` occurs). -/
def basenameChars (l : List Char) : List Char :=
  (l.reverse.takeWhile (fun c => c ≠ '/')).reverse

/-- `os.path.basename`: the final path component. -/
def basename (p : String) : String := String.mk (basenameChars p.data)

/-- Path join with `'/'` (FileSystems.join / os.path.join for our paths). -/
def pjoin (d n : String) : String := d ++ "/" ++ n

/-- `str.endswith` from Python, kernel-evaluable. -/
def strEndsWith (s suf : String) : Bool := suf.data.isSuffixOf s.data

/-- `str.startswith` from Python, kernel-evaluable. -/
def strStartsWith (s p : String) : Bool := p.data.isPrefixOf s.data

/-- Substring occurrence test. -/
def hasSub (n : List Char) : List Char → Bool
  | [] => n.isEmpty
  | c :: cs => n.isPrefixOf (c :: cs) || hasSub n cs

/-- `Stager._is_remote_path`: `path.find('://') != -1`. -/
def isRemotePath (p : String) : Bool := hasSub "://".data p.data

/-- Python `str.lower`, kernel-evaluable. -/
def strLower (s : String) : String := String.mk (s.data.map Char.toLower)

/-- `Except` success test. -/
def isOkE {α : Type} : Except String α → Bool
  | .ok _ => true
  | .error _ => false

/-! ## Standard staging file names (stager.py constants) -/

def WORKFLOW_TARBALL_FILE : String := "workflow.tar.gz"

def REQUIREMENTS_FILE : String := "requirements.txt"

def EXTRA_PACKAGES_FILE : String := "extra_packages.txt"

/-- Modelled from the spec: this constant is imported from
`apache_beam.runners.dataflow.internal.names`, repository code that is not
under `src/`; its exact value is immaterial to the claims below. -/
def DATAFLOW_SDK_TARBALL_FILE : String := "dataflow_python_sdk.tar"

/-- Modelled from the spec: this constant is imported from
`apache_beam.runners.internal.names`, repository code that is not under
`src/`; its exact value is immaterial to the claims below. -/
def PICKLED_MAIN_SESSION_FILE : String := "pickled_main_session"

/-! ## Effect trace -/

/-- Observable side effects of the stager. -/
inductive Event
  | stage (localPath stagedPath : String)
  | download (url : String)
  | rmtree (dir : String)
  | commit
deriving DecidableEq, Repr

/-! ## `_stage_extra_packages` (stager.py lines 386-468)

The loop over `extra_packages`: each package must have an allowed extension;
an existing local file is appended to `local_packages`; otherwise a remote
path is downloaded into the fresh `staging_temp_dir` (its last component as
file name) and a non-existing non-remote path is a fatal error.  After the
loop, `local_packages` is extended with the directory listing of
`staging_temp_dir`. -/

/-- The allowed-extension test of `_stage_extra_packages` (line 411). -/
def extraExtOk (package : String) : Bool :=
  strEndsWith (basename package) ".tar" || strEndsWith (basename package) ".tar.gz" ||
    strEndsWith (basename package) ".whl" || strEndsWith (basename package) ".zip"

/-- The package loop of `_stage_extra_packages`: returns the event trace
together with either an error or the pair
(local packages in input order, downloaded file names in download order). -/
def extraLoop (files : List String) (dlOk : String → Bool) :
    List String → List Event × Except String (List String × List String)
  | [] => ([], .ok ([], []))
  | p :: rest =>
    if extraExtOk p = false then
      ([],
        .error ("The --extra_package option expects a full path ending with " ++
          ".tar, .tar.gz, .whl or .zip instead of " ++ p))
    else if p ∈ files then
      match extraLoop files dlOk rest with
      | (tr, .ok (ls, ds)) => (tr, .ok (p :: ls, ds))
      | (tr, .error e) => (tr, .error e)
    else if isRemotePath p then
      if dlOk p then
        match extraLoop files dlOk rest with
        | (tr, .ok (ls, ds)) => (Event.download p :: tr, .ok (ls, basename p :: ds))
        | (tr, .error e) => (Event.download p :: tr, .error e)
      else ([Event.download p], .error ("Failed to download Artifact from " ++ p))
    else
      ([],
        .error ("The file " ++ p ++ " cannot be found. It was specified in the " ++
          "--extra_packages command line option."))

/-- `_stage_extra_packages`: stage all local packages (originals in input
order, then the downloads), then write and stage the `extra_packages.txt`
manifest; returns the staged resource names. -/
def stageExtraPackages (files : List String) (dlOk : String → Bool)
    (loc std tmp : String) (pkgs : List String) :
    List Event × Except String (List String) :=
  match extraLoop files dlOk pkgs with
  | (tr, .error e) => (tr, .error e)
  | (tr, .ok (ls, ds)) =>
    let localPackages := ls ++ ds.map (fun n => pjoin std n)
    (tr ++ localPackages.map (fun p => Event.stage p (pjoin loc (basename p))) ++
        [Event.stage (pjoin tmp EXTRA_PACKAGES_FILE) (pjoin loc EXTRA_PACKAGES_FILE)],
      .ok (localPackages.map basename ++ [EXTRA_PACKAGES_FILE]))

/-- Content of the generated `extra_packages.txt` manifest (one basename per
line, over `local_packages`), `none` when `_stage_extra_packages` raises. -/
def extraManifest (files : List String) (dlOk : String → Bool)
    (std : String) (pkgs : List String) : Option (List String) :=
  match extraLoop files dlOk pkgs with
  | (_, .ok (ls, ds)) => some ((ls ++ ds.map (fun n => pjoin std n)).map basename)
  | (_, .error _) => none

/-! ## Basename lemmas -/

theorem takeWhile_append_all {p : Char → Bool} (xs : List Char) (y : Char) (ys : List Char)
    (hxs : ∀ c ∈ xs, p c = true) (hy : p y = false) :
    (xs ++ y :: ys).takeWhile p = xs := by
  induction xs with
  | nil => simp [List.takeWhile, hy]
  | cons a as ih =>
    have ha : p a = true := hxs a (by simp)
    simp [List.takeWhile, ha]
    exact ih (fun c hc => hxs c (by simp [hc]))

theorem mem_takeWhile_sat {p : Char → Bool} (l : List Char) (c : Char)
    (hc : c ∈ l.takeWhile p) : p c = true := by
  induction l with
  | nil => simp [List.takeWhile] at hc
  | cons a as ih =>
    cases ha : p a with
    | false => simp [List.takeWhile, ha] at hc
    | true =>
      simp [List.takeWhile, ha] at hc
      rcases hc with h | h
      · exact h ▸ ha
      · exact ih h

theorem basename_no_slash (p : String) : ∀ c ∈ (basename p).data, c ≠ '/' := by
  intro c hc
  have h1 : c ∈ p.data.reverse.takeWhile (fun c => c ≠ '/') := by
    simpa [basename, basenameChars, List.mem_reverse] using hc
  simpa using mem_takeWhile_sat _ _ h1

theorem basenameChars_concat (l m : List Char) (h : ∀ c ∈ m, c ≠ '/') :
    basenameChars (l ++ '/' :: m) = m := by
  have h1 : (l ++ '/' :: m).reverse = m.reverse ++ '/' :: l.reverse := by simp
  unfold basenameChars
  rw [h1,
    takeWhile_append_all _ _ _ (fun c hc => by simpa using h c (List.mem_reverse.mp hc))
      (by simp), List.reverse_reverse]

theorem basename_pjoin (d n : String) (h : ∀ c ∈ n.data, c ≠ '/') :
    basename (pjoin d n) = n := by
  have hdata : (pjoin d n).data = d.data ++ '/' :: n.data := by
    simp [pjoin, String.data_append]
  show String.mk (basenameChars (pjoin d n).data) = n
  rw [hdata, basenameChars_concat _ _ h]

theorem basename_pjoin_basename (std p : String) :
    basename (pjoin std (basename p)) = basename p :=
  basename_pjoin std (basename p) (basename_no_slash p)

/-! ## Characterization of a successful `_stage_extra_packages` loop -/

theorem extraLoop_ok_characterization (files : List String) (dlOk : String → Bool)
    (pkgs : List String) :
    ∀ ls ds, (extraLoop files dlOk pkgs).2 = .ok (ls, ds) →
      ls = pkgs.filter (fun p => decide (p ∈ files)) ∧
      ds = (pkgs.filter (fun p => !decide (p ∈ files))).map basename := by
  induction pkgs with
  | nil =>
    intro ls ds h
    simp [extraLoop] at h
    rcases h with ⟨h1, h2⟩
    subst h1; subst h2
    simp
  | cons p rest ih =>
    intro ls ds h
    by_cases hext : extraExtOk p = false
    · simp [extraLoop, hext] at h
    · by_cases hf : p ∈ files
      · rcases hrest : extraLoop files dlOk rest with ⟨tr, r⟩
        cases r with
        | ok pr =>
          rcases pr with ⟨ls', ds'⟩
          rcases ih ls' ds' (by rw [hrest]) with ⟨hls, hds⟩
          simp [extraLoop, hext, hf, hrest] at h
          simp [List.filter_cons, hf, ← h.1, ← h.2, hls, hds]
        | error e =>
          simp [extraLoop, hext, hf, hrest] at h
      · by_cases hrem : isRemotePath p = true
        · by_cases hdl : dlOk p = true
          · rcases hrest : extraLoop files dlOk rest with ⟨tr, r⟩
            cases r with
            | ok pr =>
              rcases pr with ⟨ls', ds'⟩
              rcases ih ls' ds' (by rw [hrest]) with ⟨hls, hds⟩
              simp [extraLoop, hext, hf, hrem, hdl, hrest] at h
              simp [List.filter_cons, hf, ← h.1, ← h.2, hls, hds]
            | error e =>
              simp [extraLoop, hext, hf, hrem, hdl, hrest] at h
          · simp [extraLoop, hext, hf, hrem, hdl] at h
        · simp [extraLoop, hext, hf, hrem] at h

/-- Trace formula for one step of the extra-package loop. -/
theorem extraLoop_cons_trace (files : List String) (dlOk : String → Bool)
    (p : String) (l : List String) :
    (extraLoop files dlOk (p :: l)).1 =
      if extraExtOk p = false then []
      else if p ∈ files then (extraLoop files dlOk l).1
      else if isRemotePath p then
        if dlOk p then Event.download p :: (extraLoop files dlOk l).1
        else [Event.download p]
      else [] := by
  by_cases hext : extraExtOk p = false
  · simp [extraLoop, hext]
  · by_cases hf : p ∈ files
    · rcases hrest : extraLoop files dlOk l with ⟨tr, r⟩
      cases r with
      | ok pr => rcases pr with ⟨ls', ds'⟩; simp [extraLoop, hext, hf, hrest]
      | error e => simp [extraLoop, hext, hf, hrest]
    · by_cases hrem : isRemotePath p = true
      · by_cases hdl : dlOk p = true
        · rcases hrest : extraLoop files dlOk l with ⟨tr, r⟩
          cases r with
          | ok pr => rcases pr with ⟨ls', ds'⟩; simp [extraLoop, hext, hf, hrem, hdl, hrest]
          | error e => simp [extraLoop, hext, hf, hrem, hdl, hrest]
        · simp [extraLoop, hext, hf, hrem, hdl]
      · simp [extraLoop, hext, hf, hrem]

/-- Every event the extra-package loop emits is a download. -/
theorem extraLoop_events_are_downloads (files : List String) (dlOk : String → Bool)
    (pkgs : List String) :
    ∀ e ∈ (extraLoop files dlOk pkgs).1, ∃ u, e = Event.download u := by
  induction pkgs with
  | nil => intro e he; simp [extraLoop] at he
  | cons p rest ih =>
    intro e he
    rw [extraLoop_cons_trace] at he
    by_cases hext : extraExtOk p = false
    · simp [hext] at he
    · by_cases hf : p ∈ files
      · simp [hext, hf] at he
        exact ih e he
      · by_cases hrem : isRemotePath p = true
        · by_cases hdl : dlOk p = true
          · simp [hext, hf, hrem, hdl] at he
            rcases he with he | he
            · exact ⟨p, by rw [he]⟩
            · exact ih e he
          · simp [hext, hf, hrem, hdl] at he
            exact ⟨p, by rw [he]⟩
        · simp [hext, hf, hrem] at he

/-- Packages after the first one with a rejected extension are never looked at:
the loop behaves as if the list ended right after that package. -/
theorem extraLoop_unreached_after_bad (files : List String) (dlOk : String → Bool)
    (post : List String) (bad : String) (hbad : extraExtOk bad = false) :
    ∀ pre, extraLoop files dlOk (pre ++ bad :: post) =
      extraLoop files dlOk (pre ++ [bad]) := by
  intro pre
  induction pre with
  | nil => simp [extraLoop, hbad]
  | cons p pre' ih =>
    simp only [List.cons_append, extraLoop, List.append_eq]
    rw [ih]

/-- A list containing a package with a rejected extension never stages
successfully. -/
theorem extraLoop_bad_not_ok (files : List String) (dlOk : String → Bool)
    (post : List String) (bad : String) (hbad : extraExtOk bad = false) :
    ∀ pre, isOkE (extraLoop files dlOk (pre ++ bad :: post)).2 = false := by
  intro pre
  induction pre with
  | nil => simp [extraLoop, hbad, isOkE]
  | cons p pre' ih =>
    rcases hrest : extraLoop files dlOk (pre' ++ bad :: post) with ⟨tr, r⟩
    cases r with
    | ok pr =>
      rw [hrest] at ih
      simp [isOkE] at ih
    | error e =>
      by_cases hext : extraExtOk p = false
      · simp [extraLoop, hext, isOkE]
      · by_cases hf : p ∈ files
        · simp [List.cons_append, extraLoop, hext, hf, hrest, isOkE]
        · by_cases hrem : isRemotePath p = true
          · by_cases hdl : dlOk p = true
            · simp [List.cons_append, extraLoop, hext, hf, hrem, hdl, hrest, isOkE]
            · simp [List.cons_append, extraLoop, hext, hf, hrem, hdl, isOkE]
          · simp [List.cons_append, extraLoop, hext, hf, hrem, isOkE]

/-- The trace of a run that hits a bad extension is exactly the trace of the
packages before the bad one. -/
theorem extraLoop_trace_of_bad (files : List String) (dlOk : String → Bool)
    (post : List String) (bad : String) (hbad : extraExtOk bad = false) :
    ∀ pre, (extraLoop files dlOk (pre ++ bad :: post)).1 =
      (extraLoop files dlOk pre).1 := by
  intro pre
  induction pre with
  | nil => simp [extraLoop, hbad]
  | cons p pre' ih =>
    rw [List.cons_append, extraLoop_cons_trace, extraLoop_cons_trace, ih]

/-- C1 (counterexample): a mixed remote/local extra-package list is accepted,
but the generated `extra_packages.txt` manifest does not list the basenames in
input order: the local file comes first and the downloaded remote file after
it. -/
theorem C1_counterexample :
    extraManifest ["b.tar"] (fun _ => true) "/tmp/t0" ["gs://bkt/a.tar", "b.tar"] =
      some ["b.tar", "a.tar"] ∧
    ¬ extraManifest ["b.tar"] (fun _ => true) "/tmp/t0" ["gs://bkt/a.tar", "b.tar"] =
      some (["gs://bkt/a.tar", "b.tar"].map basename) := by
  constructor
  · decide
  · decide

/-- C1 (amended): whenever `_stage_extra_packages` accepts its input, the
generated `extra_packages.txt` manifest lists the basenames of the packages
that exist as local files, in input order, followed by the basenames of the
remaining (downloaded remote) packages, in the order the staging temp
directory listing returns them (modelled as download order, which follows
input order among the remote packages).  When no package is downloaded this
is exactly the input order. -/
theorem C1_amended (files : List String) (dlOk : String → Bool) (std : String)
    (pkgs m : List String) (h : extraManifest files dlOk std pkgs = some m) :
    m = (pkgs.filter (fun p => decide (p ∈ files))).map basename ++
        (pkgs.filter (fun p => !decide (p ∈ files))).map basename := by
  unfold extraManifest at h
  rcases hl : extraLoop files dlOk pkgs with ⟨tr, r⟩
  rw [hl] at h
  cases r with
  | error e => simp at h
  | ok pr =>
    rcases pr with ⟨ls, ds⟩
    simp at h
    rcases extraLoop_ok_characterization files dlOk pkgs ls ds (by rw [hl]) with ⟨hls, hds⟩
    rw [← h, hls, hds, List.map_map]
    congr 1
    exact List.map_congr_left (fun p _ => basename_pjoin_basename std p)

/-- C1 (witness): the amended characterization applied to a concrete
all-local input. -/
theorem C1_amended_witness :
    ["x.tar"] = (["x.tar"].filter (fun p => decide (p ∈ ["x.tar"]))).map basename ++
        (["x.tar"].filter (fun p => !decide (p ∈ ["x.tar"]))).map basename :=
  C1_amended ["x.tar"] (fun _ => true) "/tmp/t0" ["x.tar"] ["x.tar"] (by decide)

/-- C3 (counterexample): with the list `[gs://bkt/a.tar, bad.txt]`, the first
(remote, well-formed) package is downloaded before the unsupported extension
of the second package is detected, so the fatal error is not raised before
all network activity. -/
theorem C3_counterexample :
    (stageExtraPackages [] (fun _ => true) "/staging" "/tmp/t0" "/tmp/job"
        ["gs://bkt/a.tar", "bad.txt"]).1 = [Event.download "gs://bkt/a.tar"] ∧
    isOkE (stageExtraPackages [] (fun _ => true) "/staging" "/tmp/t0" "/tmp/job"
        ["gs://bkt/a.tar", "bad.txt"]).2 = false := by
  constructor
  · decide
  · decide

/-- C3 (amended): when the extra-packages list contains a package whose
basename does not end in `.tar`, `.tar.gz`, `.whl` or `.zip`,
`_stage_extra_packages` raises a fatal error; no staging activity at all is
performed, and no download is performed for the offending package or any
package after it — only packages before the first offending one may already
have been downloaded. -/
theorem C3_amended (files : List String) (dlOk : String → Bool)
    (loc std tmp : String) (pre post : List String) (bad : String)
    (hbad : extraExtOk bad = false) :
    isOkE (stageExtraPackages files dlOk loc std tmp (pre ++ bad :: post)).2 = false ∧
    (stageExtraPackages files dlOk loc std tmp (pre ++ bad :: post)).1 =
      (extraLoop files dlOk pre).1 ∧
    ∀ e ∈ (stageExtraPackages files dlOk loc std tmp (pre ++ bad :: post)).1,
      ∃ u, e = Event.download u := by
  have hok := extraLoop_bad_not_ok files dlOk post bad hbad pre
  have htr := extraLoop_trace_of_bad files dlOk post bad hbad pre
  rcases hl : extraLoop files dlOk (pre ++ bad :: post) with ⟨tr, r⟩
  rw [hl] at hok htr
  cases r with
  | ok pr => simp [isOkE] at hok
  | error e =>
    refine ⟨?_, ?_, ?_⟩
    · simp [stageExtraPackages, hl, isOkE]
    · simp [stageExtraPackages, hl, htr]
    · intro ev hev
      simp [stageExtraPackages, hl] at hev
      exact extraLoop_events_are_downloads files dlOk (pre ++ bad :: post) ev
        (by rw [hl]; exact hev)

/-- C3 (witness): the amended statement applied to a concrete list whose
second package has an unsupported extension. -/
theorem C3_amended_witness :
    isOkE (stageExtraPackages [] (fun _ => true) "/staging" "/tmp/t0" "/tmp/job"
        (["gs://bkt/c.tar"] ++ "bad2.txt" :: [])).2 = false ∧
    (stageExtraPackages [] (fun _ => true) "/staging" "/tmp/t0" "/tmp/job"
        (["gs://bkt/c.tar"] ++ "bad2.txt" :: [])).1 =
      (extraLoop [] (fun _ => true) ["gs://bkt/c.tar"]).1 ∧
    ∀ e ∈ (stageExtraPackages [] (fun _ => true) "/staging" "/tmp/t0" "/tmp/job"
        (["gs://bkt/c.tar"] ++ "bad2.txt" :: [])).1, ∃ u, e = Event.download u :=
  C3_amended [] (fun _ => true) "/staging" "/tmp/t0" "/tmp/job"
    ["gs://bkt/c.tar"] [] "bad2.txt" (by decide)

/-! ## `_stage_jar_packages` (stager.py lines 334-384)

Same existence/remote-download/stage pattern as the extra packages, with the
extension restricted to `.jar` and no manifest file. -/

/-- The `.jar`-extension test of `_stage_jar_packages` (line 353). -/
def jarExtOk (package : String) : Bool := strEndsWith (basename package) ".jar"

/-- The package loop of `_stage_jar_packages`. -/
def jarLoop (files : List String) (dlOk : String → Bool) :
    List String → List Event × Except String (List String × List String)
  | [] => ([], .ok ([], []))
  | p :: rest =>
    if jarExtOk p = false then
      ([],
        .error ("The --experiment jar_packages option expects a full path ending " ++
          "with .jar instead of " ++ p))
    else if p ∈ files then
      match jarLoop files dlOk rest with
      | (tr, .ok (ls, ds)) => (tr, .ok (p :: ls, ds))
      | (tr, .error e) => (tr, .error e)
    else if isRemotePath p then
      if dlOk p then
        match jarLoop files dlOk rest with
        | (tr, .ok (ls, ds)) => (Event.download p :: tr, .ok (ls, basename p :: ds))
        | (tr, .error e) => (Event.download p :: tr, .error e)
      else ([Event.download p], .error ("Failed to download Artifact from " ++ p))
    else
      ([],
        .error ("The file " ++ p ++ " cannot be found. It was specified in the " ++
          "--experiment jar_packages command line option."))

/-- `_stage_jar_packages`: stage every local package (originals in input
order, then the downloads) and return the staged basenames. -/
def stageJarPackages (files : List String) (dlOk : String → Bool)
    (loc std : String) (pkgs : List String) :
    List Event × Except String (List String) :=
  match jarLoop files dlOk pkgs with
  | (tr, .error e) => (tr, .error e)
  | (tr, .ok (ls, ds)) =>
    let localPackages := ls ++ ds.map (fun n => pjoin std n)
    (tr ++ localPackages.map (fun p => Event.stage p (pjoin loc (basename p))),
      .ok (localPackages.map basename))

theorem jarLoop_ok_characterization (files : List String) (dlOk : String → Bool)
    (pkgs : List String) :
    ∀ ls ds, (jarLoop files dlOk pkgs).2 = .ok (ls, ds) →
      ls = pkgs.filter (fun p => decide (p ∈ files)) ∧
      ds = (pkgs.filter (fun p => !decide (p ∈ files))).map basename ∧
      ∀ p ∈ pkgs, jarExtOk p = true := by
  induction pkgs with
  | nil =>
    intro ls ds h
    simp [jarLoop] at h
    rcases h with ⟨h1, h2⟩
    subst h1; subst h2
    simp
  | cons p rest ih =>
    intro ls ds h
    by_cases hext : jarExtOk p = false
    · simp [jarLoop, hext] at h
    · by_cases hf : p ∈ files
      · rcases hrest : jarLoop files dlOk rest with ⟨tr, r⟩
        cases r with
        | ok pr =>
          rcases pr with ⟨ls', ds'⟩
          rcases ih ls' ds' (by rw [hrest]) with ⟨hls, hds, hexts⟩
          simp [jarLoop, hext, hf, hrest] at h
          refine ⟨?_, ?_, ?_⟩
          · simp [List.filter_cons, hf, ← h.1, hls]
          · simp [List.filter_cons, hf, ← h.2, hds]
          · intro q hq
            rcases List.mem_cons.mp hq with hq | hq
            · subst hq; simpa using hext
            · exact hexts q hq
        | error e =>
          simp [jarLoop, hext, hf, hrest] at h
      · by_cases hrem : isRemotePath p = true
        · by_cases hdl : dlOk p = true
          · rcases hrest : jarLoop files dlOk rest with ⟨tr, r⟩
            cases r with
            | ok pr =>
              rcases pr with ⟨ls', ds'⟩
              rcases ih ls' ds' (by rw [hrest]) with ⟨hls, hds, hexts⟩
              simp [jarLoop, hext, hf, hrem, hdl, hrest] at h
              refine ⟨?_, ?_, ?_⟩
              · simp [List.filter_cons, hf, ← h.1, hls]
              · simp [List.filter_cons, hf, ← h.2, hds]
              · intro q hq
                rcases List.mem_cons.mp hq with hq | hq
                · subst hq; simpa using hext
                · exact hexts q hq
            | error e =>
              simp [jarLoop, hext, hf, hrem, hdl, hrest] at h
          · simp [jarLoop, hext, hf, hrem, hdl] at h
        · simp [jarLoop, hext, hf, hrem] at h

/-- The outcome of the jar loop depends on the file system only through the
existence of the listed packages themselves. -/
theorem jarLoop_agree (files₁ files₂ : List String) (dlOk : String → Bool)
    (pkgs : List String) (hagree : ∀ p ∈ pkgs, p ∈ files₂ ↔ p ∈ files₁) :
    (jarLoop files₂ dlOk pkgs).2 = (jarLoop files₁ dlOk pkgs).2 := by
  induction pkgs with
  | nil => simp [jarLoop]
  | cons p rest ih =>
    have hp : p ∈ files₂ ↔ p ∈ files₁ := hagree p (by simp)
    have hrest' : ∀ q ∈ rest, q ∈ files₂ ↔ q ∈ files₁ :=
      fun q hq => hagree q (by simp [hq])
    have ihr := ih hrest'
    by_cases hext : jarExtOk p = false
    · simp [jarLoop, hext]
    · by_cases hf : p ∈ files₁
      · rcases hrest₁ : jarLoop files₁ dlOk rest with ⟨tr₁, r₁⟩
        rcases hrest₂ : jarLoop files₂ dlOk rest with ⟨tr₂, r₂⟩
        rw [hrest₁, hrest₂] at ihr
        cases r₁ with
        | ok pr =>
          rcases pr with ⟨ls', ds'⟩
          simp at ihr
          simp [jarLoop, hext, hf, hp.mpr hf, hrest₁, hrest₂, ihr]
        | error e =>
          simp at ihr
          simp [jarLoop, hext, hf, hp.mpr hf, hrest₁, hrest₂, ihr]
      · have hf₂ : ¬ p ∈ files₂ := fun hc => hf (hp.mp hc)
        by_cases hrem : isRemotePath p = true
        · by_cases hdl : dlOk p = true
          · rcases hrest₁ : jarLoop files₁ dlOk rest with ⟨tr₁, r₁⟩
            rcases hrest₂ : jarLoop files₂ dlOk rest with ⟨tr₂, r₂⟩
            rw [hrest₁, hrest₂] at ihr
            cases r₁ with
            | ok pr =>
              rcases pr with ⟨ls', ds'⟩
              simp at ihr
              simp [jarLoop, hext, hf, hf₂, hrem, hdl, hrest₁, hrest₂, ihr]
            | error e =>
              simp at ihr
              simp [jarLoop, hext, hf, hf₂, hrem, hdl, hrest₁, hrest₂, ihr]
          · simp [jarLoop, hext, hf, hf₂, hrem, hdl]
        · simp [jarLoop, hext, hf, hf₂, hrem]

/-- Successful `_stage_jar_packages` returns the basenames determined by the
characterization of the loop. -/
theorem stageJarPackages_ok_names (files : List String) (dlOk : String → Bool)
    (loc std : String) (pkgs ls ds : List String)
    (h : (jarLoop files dlOk pkgs).2 = .ok (ls, ds))
    (hds : ds = (pkgs.filter (fun p => !decide (p ∈ files))).map basename) :
    (stageJarPackages files dlOk loc std pkgs).2 = .ok (ls.map basename ++ ds) := by
  rcases hl : jarLoop files dlOk pkgs with ⟨tr, r⟩
  rw [hl] at h
  cases r with
  | error e => simp at h
  | ok pr =>
    rcases pr with ⟨ls', ds'⟩
    simp at h
    rcases h with ⟨h1, h2⟩
    subst h1; subst h2
    simp only [stageJarPackages, hl]
    congr 1
    rw [List.map_append, List.map_map]
    congr 1
    subst hds
    rw [List.map_map]
    exact List.map_congr_left (fun p _ => basename_pjoin_basename std p)

/-- C8: staging the same jar-package list twice is idempotent in naming: if
the first invocation succeeds with a list of staged basenames, the second
invocation — on a file system that agrees with the first on the existence of
the listed packages (the first call only creates files inside its own fresh
staging temp directory) and with the same download behaviour — succeeds with
the same list, and every staged basename ends in `.jar`. -/
theorem C8_jar_idempotent (files₁ files₂ : List String) (dlOk : String → Bool)
    (loc₁ loc₂ std₁ std₂ : String) (pkgs names : List String)
    (hagree : ∀ p ∈ pkgs, p ∈ files₂ ↔ p ∈ files₁)
    (h1 : (stageJarPackages files₁ dlOk loc₁ std₁ pkgs).2 = .ok names) :
    (stageJarPackages files₂ dlOk loc₂ std₂ pkgs).2 = .ok names ∧
    ∀ n ∈ names, strEndsWith n ".jar" = true := by
  rcases hl : jarLoop files₁ dlOk pkgs with ⟨tr, r⟩
  cases r with
  | error e =>
    rw [stageJarPackages, hl] at h1
    simp at h1
  | ok pr =>
    rcases pr with ⟨ls, ds⟩
    rcases jarLoop_ok_characterization files₁ dlOk pkgs ls ds (by rw [hl]) with
      ⟨hls, hds, hexts⟩
    have hnames : names = ls.map basename ++ ds := by
      have := stageJarPackages_ok_names files₁ dlOk loc₁ std₁ pkgs ls ds (by rw [hl]) hds
      rw [this] at h1
      exact (Except.ok.injEq _ _).mp h1.symm
    have hfilters : pkgs.filter (fun p => decide (p ∈ files₂)) =
        pkgs.filter (fun p => decide (p ∈ files₁)) :=
      List.filter_congr (fun p hp => by simp [hagree p hp])
    have hfilters' : pkgs.filter (fun p => !decide (p ∈ files₂)) =
        pkgs.filter (fun p => !decide (p ∈ files₁)) :=
      List.filter_congr (fun p hp => by simp [hagree p hp])
    have h2loop : (jarLoop files₂ dlOk pkgs).2 = .ok (ls, ds) := by
      rw [jarLoop_agree files₁ files₂ dlOk pkgs hagree, hl]
    have hds₂ : ds = (pkgs.filter (fun p => !decide (p ∈ files₂))).map basename := by
      rw [hfilters']; exact hds
    constructor
    · rw [stageJarPackages_ok_names files₂ dlOk loc₂ std₂ pkgs ls ds h2loop hds₂, hnames]
    · intro n hn
      rw [hnames] at hn
      rcases List.mem_append.mp hn with hn | hn
      · rcases List.mem_map.mp hn with ⟨p, hp, hpn⟩
        have hpp : p ∈ pkgs := List.mem_of_mem_filter (hls ▸ hp)
        rw [← hpn]
        exact hexts p hpp
      · rw [hds] at hn
        rcases List.mem_map.mp hn with ⟨p, hp, hpn⟩
        have hpp : p ∈ pkgs := List.mem_of_mem_filter hp
        rw [← hpn]
        exact hexts p hpp

/-- C8 (witness): the idempotence theorem applied to a concrete two-element
jar list, one local and one remote, staged twice. -/
theorem C8_jar_idempotent_witness :
    (stageJarPackages ["lib.jar"] (fun _ => true) "/st2" "/tmp/t2"
        ["lib.jar", "gs://bkt/dep.jar"]).2 = .ok ["lib.jar", "dep.jar"] ∧
    ∀ n ∈ ["lib.jar", "dep.jar"], strEndsWith n ".jar" = true :=
  C8_jar_idempotent ["lib.jar"] ["lib.jar"] (fun _ => true) "/st1" "/st2" "/tmp/t1" "/tmp/t2"
    ["lib.jar", "gs://bkt/dep.jar"] ["lib.jar", "dep.jar"]
    (fun _ _ => Iff.rfl) rfl

/-! ## `stage_job_resources` (stager.py lines 117-298)

The pipeline options consulted by `stage_job_resources`.  `sdk_location =
none` models an options object without the `sdk_location` attribute
(`hasattr` false); `jar_packages` is the raw comma-separated experiment
value. -/

structure Options where
  requirements_file : Option String := none
  requirements_cache : Option String := none
  setup_file : Option String := none
  extra_packages : Option (List String) := none
  jar_packages : Option String := none
  save_main_session : Bool := false
  sdk_location : Option String := none
  dataflow_worker_jar : Option String := none

/-- The external world `stage_job_resources` interacts with: which paths
exist as files/directories, the listing of the requirements cache directory
after `pip download`, and the outcomes of the subprocess/network operations.
`tempDir` is the temp directory of the call; `stdExtra`/`stdJar` are the
fresh staging temp directories created inside it. -/
structure World where
  files : List String := []
  dirs : List String := []
  reqCacheListing : List String := []
  pipDownloadOk : Bool := true
  dlOk : String → Bool := fun _ => true
  pypiSource : Except String String := .error "pypi unavailable"
  pypiBinary : Except String String := .error "pypi unavailable"
  setupBuild : Except String String := .error "build failed"
  tempDir : String := "/tmp/job"
  stdExtra : String := "/tmp/job/e"
  stdJar : String := "/tmp/job/j"

/-- Python `s.split(',')` (splitting on every comma; `''` yields `['']`). -/
def pySplitCommaAux : List Char → List Char → List (List Char)
  | [], acc => [acc.reverse]
  | c :: cs, acc =>
    if c = ',' then acc.reverse :: pySplitCommaAux cs [] else pySplitCommaAux cs (c :: acc)

def pySplitComma (s : String) : List String :=
  (pySplitCommaAux s.data []).map String.mk

/-- The requirements cache directory (line 168): an explicit
`requirements_cache` option or `<tempdir>/dataflow-requirements-cache`. -/
def requirementsCachePath (opts : Options) : String :=
  match opts.requirements_cache with
  | none => "/tmp/dataflow-requirements-cache"
  | some c => c

/-- Requirements staging (lines 159-183): stage the requirements file, run
`pip download` into the cache (fatal if all retries fail), then stage every
`glob('*')` match of the cache directory — `glob` skips names beginning with
a dot. -/
def requirementsStep (opts : Options) (w : World) (loc : String) :
    List Event × Except String (List String) :=
  match opts.requirements_file with
  | none => ([], .ok [])
  | some rf =>
    if rf ∈ w.files then
      if w.pipDownloadOk then
        let cached := w.reqCacheListing.filter (fun n => !strStartsWith n ".")
        (Event.stage rf (pjoin loc REQUIREMENTS_FILE) ::
            cached.map (fun n => Event.stage (pjoin (requirementsCachePath opts) n) (pjoin loc n)),
          .ok (REQUIREMENTS_FILE :: cached))
      else
        ([Event.stage rf (pjoin loc REQUIREMENTS_FILE)],
          .error "pip download of the requirements failed")
    else
      ([], .error ("The file " ++ rf ++ " cannot be found. It was specified in the " ++
        "--requirements_file command line option."))

/-- Setup-file staging (lines 189-202). -/
def setupStep (opts : Options) (w : World) (loc : String) :
    List Event × Except String (List String) :=
  match opts.setup_file with
  | none => ([], .ok [])
  | some sf =>
    if sf ∈ w.files then
      if basename sf = "setup.py" then
        match w.setupBuild with
        | .ok tarball =>
          ([Event.stage tarball (pjoin loc WORKFLOW_TARBALL_FILE)], .ok [WORKFLOW_TARBALL_FILE])
        | .error e => ([], .error e)
      else
        ([], .error ("The --setup_file option expects the full path to a file named " ++
          "setup.py instead of " ++ sf))
    else
      ([], .error ("The file " ++ sf ++ " cannot be found. It was specified in the " ++
        "--setup_file command line option."))

/-- Extra-package staging (lines 205-209). -/
def extraStep (opts : Options) (w : World) (loc : String) :
    List Event × Except String (List String) :=
  match opts.extra_packages with
  | none => ([], .ok [])
  | some pkgs => stageExtraPackages w.files w.dlOk loc w.stdExtra w.tempDir pkgs

/-- Jar-package staging (lines 212-217). -/
def jarStep (opts : Options) (w : World) (loc : String) :
    List Event × Except String (List String) :=
  match opts.jar_packages with
  | none => ([], .ok [])
  | some s => stageJarPackages w.files w.dlOk loc w.stdJar (pySplitComma s)

/-- Main-session pickling (lines 223-230). -/
def sessionStep (opts : Options) (w : World) (loc : String) :
    List Event × Except String (List String) :=
  if opts.save_main_session then
    ([Event.stage (pjoin w.tempDir PICKLED_MAIN_SESSION_FILE)
        (pjoin loc PICKLED_MAIN_SESSION_FILE)],
      .ok [PICKLED_MAIN_SESSION_FILE])
  else ([], .ok [])

/-- `Stager._desired_sdk_filename_in_staging_location` (lines 533-548). -/
def desiredSdkFilename (sdk_location : String) : Except String String :=
  if strEndsWith sdk_location ".whl" then
    if strStartsWith (basename sdk_location) "apache_beam" then .ok (basename sdk_location)
    else .error ("Unrecognized SDK wheel file: " ++ sdk_location)
  else .ok DATAFLOW_SDK_TARBALL_FILE

/-- `Stager._stage_beam_sdk` (lines 550-616).  For `'pypi'`: download the
source distribution (fatal on failure), stage it, then best-effort download
and stage a binary wheel (failures only warn).  For a remote path: download
`beam-sdk.tar.gz` into the temp dir and stage it.  Anything else is fatal. -/
def stageBeamSdk (w : World) (loc : String) (sdkRemoteLocation : String) :
    List Event × Except String (List String) :=
  if sdkRemoteLocation = "pypi" then
    match w.pypiSource with
    | .error e => ([], .error e)
    | .ok srcFile =>
      match desiredSdkFilename srcFile with
      | .error e => ([], .error e)
      | .ok srcName =>
        match w.pypiBinary with
        | .error _ => ([Event.stage srcFile (pjoin loc srcName)], .ok [srcName])
        | .ok binFile =>
          match desiredSdkFilename binFile with
          | .error _ => ([Event.stage srcFile (pjoin loc srcName)], .ok [srcName])
          | .ok binName =>
            ([Event.stage srcFile (pjoin loc srcName),
                Event.stage binFile (pjoin loc binName)],
              .ok [srcName, binName])
  else if isRemotePath sdkRemoteLocation then
    if w.dlOk sdkRemoteLocation then
      match desiredSdkFilename sdkRemoteLocation with
      | .error e => ([Event.download sdkRemoteLocation], .error e)
      | .ok name =>
        ([Event.download sdkRemoteLocation,
            Event.stage (pjoin w.tempDir "beam-sdk.tar.gz") (pjoin loc name)],
          .ok [name])
    else
      ([Event.download sdkRemoteLocation],
        .error ("Failed to download Artifact from " ++ sdkRemoteLocation))
  else
    ([], .error ("The --sdk_location option was used with an unsupported " ++
      "type of location: " ++ sdkRemoteLocation))

/-- The local tarball path tried for a non-remote `sdk_location` (lines
258-263): a directory gets the standard tarball name appended. -/
def localSdkPath (w : World) (sl : String) : String :=
  if sl ∈ w.dirs then pjoin sl DATAFLOW_SDK_TARBALL_FILE else sl

/-- SDK resolution (lines 232-285): `'default'` and remote paths go through
`_stage_beam_sdk` (with `'pypi'` for `'default'`), `'container'` is a no-op,
a local directory/tarball is staged directly, a missing explicit path is
fatal and the empty string is a warning no-op. -/
def sdkStep (opts : Options) (w : World) (loc : String) :
    List Event × Except String (List String) :=
  match opts.sdk_location with
  | none => ([], .ok [])
  | some sl =>
    if sl = "default" || isRemotePath sl then
      stageBeamSdk w loc (if sl = "default" then "pypi" else sl)
    else if sl = "container" then ([], .ok [])
    else if localSdkPath w sl ∈ w.files then
      match desiredSdkFilename sl with
      | .error e => ([], .error e)
      | .ok name => ([Event.stage (localSdkPath w sl) (pjoin loc name)], .ok [name])
    else if sl = "default" then
      ([], .error ("Cannot find default Beam SDK tar file " ++ localSdkPath w sl))
    else if sl = "" then ([], .ok [])
    else
      ([], .error ("The file " ++ localSdkPath w sl ++ " cannot be found. Its location " ++
        "was specified by the --sdk_location command-line option."))

/-- Worker-jar staging (lines 287-293). -/
def workerJarStep (opts : Options) (_w : World) (loc : String) :
    List Event × Except String (List String) :=
  match opts.dataflow_worker_jar with
  | none => ([], .ok [])
  | some j => ([Event.stage j (pjoin loc "dataflow-worker.jar")], .ok ["dataflow-worker.jar"])

/-- Sequence two staging steps: an error aborts the call, resources and
events accumulate in order. -/
def seqStep (a b : List Event × Except String (List String)) :
    List Event × Except String (List String) :=
  match a with
  | (tr, .error e) => (tr, .error e)
  | (tr, .ok rs) =>
    match b with
    | (tr2, .error e) => (tr ++ tr2, .error e)
    | (tr2, .ok rs2) => (tr ++ tr2, .ok (rs ++ rs2))

/-- The seven optional staging steps of `stage_job_resources`, in source
order. -/
def allSteps (opts : Options) (w : World) (loc : String) :
    List Event × Except String (List String) :=
  seqStep (requirementsStep opts w loc)
    (seqStep (setupStep opts w loc)
      (seqStep (extraStep opts w loc)
        (seqStep (jarStep opts w loc)
          (seqStep (sessionStep opts w loc)
            (seqStep (sdkStep opts w loc) (workerJarStep opts w loc))))))

/-- `stage_job_resources`: requires a staging location, runs the steps, and
only on undisturbed completion removes the temp directory (line 296) and
commits the manifest (line 297); an error propagates immediately. -/
def stageJobResources (opts : Options) (w : World) (staging_location : Option String) :
    List Event × Except String (List String) :=
  match staging_location with
  | none => ([], .error "The staging_location must be specified.")
  | some loc =>
    match allSteps opts w loc with
    | (tr, .error e) => (tr, .error e)
    | (tr, .ok rs) => (tr ++ [Event.rmtree w.tempDir, Event.commit], .ok rs)

/-! ## Trace lemmas: the steps only stage and download; `rmtree`/`commit`
happen solely at the end of `stage_job_resources` -/

/-- Events a staging step may emit (as opposed to the final cleanup/commit). -/
def isFsEvent : Event → Bool
  | .stage _ _ => true
  | .download _ => true
  | .rmtree _ => false
  | .commit => false

theorem jarLoop_cons_trace (files : List String) (dlOk : String → Bool)
    (p : String) (l : List String) :
    (jarLoop files dlOk (p :: l)).1 =
      if jarExtOk p = false then []
      else if p ∈ files then (jarLoop files dlOk l).1
      else if isRemotePath p then
        if dlOk p then Event.download p :: (jarLoop files dlOk l).1
        else [Event.download p]
      else [] := by
  by_cases hext : jarExtOk p = false
  · simp [jarLoop, hext]
  · by_cases hf : p ∈ files
    · rcases hrest : jarLoop files dlOk l with ⟨tr, r⟩
      cases r with
      | ok pr => rcases pr with ⟨ls', ds'⟩; simp [jarLoop, hext, hf, hrest]
      | error e => simp [jarLoop, hext, hf, hrest]
    · by_cases hrem : isRemotePath p = true
      · by_cases hdl : dlOk p = true
        · rcases hrest : jarLoop files dlOk l with ⟨tr, r⟩
          cases r with
          | ok pr => rcases pr with ⟨ls', ds'⟩; simp [jarLoop, hext, hf, hrem, hdl, hrest]
          | error e => simp [jarLoop, hext, hf, hrem, hdl, hrest]
        · simp [jarLoop, hext, hf, hrem, hdl]
      · simp [jarLoop, hext, hf, hrem]

theorem jarLoop_events_are_downloads (files : List String) (dlOk : String → Bool)
    (pkgs : List String) :
    ∀ e ∈ (jarLoop files dlOk pkgs).1, ∃ u, e = Event.download u := by
  induction pkgs with
  | nil => intro e he; simp [jarLoop] at he
  | cons p rest ih =>
    intro e he
    rw [jarLoop_cons_trace] at he
    by_cases hext : jarExtOk p = false
    · simp [hext] at he
    · by_cases hf : p ∈ files
      · simp [hext, hf] at he
        exact ih e he
      · by_cases hrem : isRemotePath p = true
        · by_cases hdl : dlOk p = true
          · simp [hext, hf, hrem, hdl] at he
            rcases he with he | he
            · exact ⟨p, by rw [he]⟩
            · exact ih e he
          · simp [hext, hf, hrem, hdl] at he
            exact ⟨p, by rw [he]⟩
        · simp [hext, hf, hrem] at he

theorem stageExtraPackages_trace_fs (files : List String) (dlOk : String → Bool)
    (loc std tmp : String) (pkgs : List String) :
    ∀ e ∈ (stageExtraPackages files dlOk loc std tmp pkgs).1, isFsEvent e = true := by
  intro e he
  rcases hl : extraLoop files dlOk pkgs with ⟨tr, r⟩
  have htr : ∀ e ∈ tr, isFsEvent e = true := by
    intro ev hev
    rcases extraLoop_events_are_downloads files dlOk pkgs ev (by rw [hl]; exact hev) with ⟨u, hu⟩
    simp [hu, isFsEvent]
  cases r with
  | error er =>
    rw [stageExtraPackages, hl] at he
    exact htr e he
  | ok pr =>
    rcases pr with ⟨ls, ds⟩
    rw [stageExtraPackages, hl] at he
    simp at he
    rcases he with he | he | he | he
    · exact htr e he
    · obtain ⟨q, -, hq⟩ := he
      simp [← hq, isFsEvent]
    · obtain ⟨q, -, hq⟩ := he
      simp [← hq, isFsEvent]
    · simp [he, isFsEvent]

theorem stageJarPackages_trace_fs (files : List String) (dlOk : String → Bool)
    (loc std : String) (pkgs : List String) :
    ∀ e ∈ (stageJarPackages files dlOk loc std pkgs).1, isFsEvent e = true := by
  intro e he
  rcases hl : jarLoop files dlOk pkgs with ⟨tr, r⟩
  have htr : ∀ e ∈ tr, isFsEvent e = true := by
    intro ev hev
    rcases jarLoop_events_are_downloads files dlOk pkgs ev (by rw [hl]; exact hev) with ⟨u, hu⟩
    simp [hu, isFsEvent]
  cases r with
  | error er =>
    rw [stageJarPackages, hl] at he
    exact htr e he
  | ok pr =>
    rcases pr with ⟨ls, ds⟩
    rw [stageJarPackages, hl] at he
    simp at he
    rcases he with he | he | he
    · exact htr e he
    · obtain ⟨q, -, hq⟩ := he
      simp [← hq, isFsEvent]
    · obtain ⟨q, -, hq⟩ := he
      simp [← hq, isFsEvent]

theorem requirementsStep_trace_fs (opts : Options) (w : World) (loc : String) :
    ∀ e ∈ (requirementsStep opts w loc).1, isFsEvent e = true := by
  intro e he
  unfold requirementsStep at he
  rcases hro : opts.requirements_file with _ | rf
  · rw [hro] at he; simp at he
  · rw [hro] at he
    by_cases hf : rf ∈ w.files
    · by_cases hpip : w.pipDownloadOk = true
      · simp [hf, hpip] at he
        rcases he with he | he
        · simp [he, isFsEvent]
        · obtain ⟨n, -, hn⟩ := he
          simp [← hn, isFsEvent]
      · simp [hf, hpip] at he
        simp [he, isFsEvent]
    · simp [hf] at he

theorem setupStep_trace_fs (opts : Options) (w : World) (loc : String) :
    ∀ e ∈ (setupStep opts w loc).1, isFsEvent e = true := by
  intro e he
  unfold setupStep at he
  rcases hso : opts.setup_file with _ | sf
  · rw [hso] at he; simp at he
  · rw [hso] at he
    by_cases hf : sf ∈ w.files
    · by_cases hn : basename sf = "setup.py"
      · rcases hb : w.setupBuild with er | tarball
        · simp [hf, hn, hb] at he
        · simp [hf, hn, hb] at he
          simp [he, isFsEvent]
      · simp [hf, hn] at he
    · simp [hf] at he

theorem extraStep_trace_fs (opts : Options) (w : World) (loc : String) :
    ∀ e ∈ (extraStep opts w loc).1, isFsEvent e = true := by
  intro e he
  unfold extraStep at he
  rcases heo : opts.extra_packages with _ | pkgs
  · rw [heo] at he; simp at he
  · rw [heo] at he
    exact stageExtraPackages_trace_fs w.files w.dlOk loc w.stdExtra w.tempDir pkgs e he

theorem jarStep_trace_fs (opts : Options) (w : World) (loc : String) :
    ∀ e ∈ (jarStep opts w loc).1, isFsEvent e = true := by
  intro e he
  unfold jarStep at he
  rcases hjo : opts.jar_packages with _ | s
  · rw [hjo] at he; simp at he
  · rw [hjo] at he
    exact stageJarPackages_trace_fs w.files w.dlOk loc w.stdJar (pySplitComma s) e he

theorem sessionStep_trace_fs (opts : Options) (w : World) (loc : String) :
    ∀ e ∈ (sessionStep opts w loc).1, isFsEvent e = true := by
  intro e he
  unfold sessionStep at he
  by_cases hs : opts.save_main_session = true
  · simp [hs] at he
    simp [he, isFsEvent]
  · simp [hs] at he

theorem stageBeamSdk_trace_fs (w : World) (loc s : String) :
    ∀ e ∈ (stageBeamSdk w loc s).1, isFsEvent e = true := by
  intro e he
  unfold stageBeamSdk at he
  by_cases hp : s = "pypi"
  · rcases hsrc : w.pypiSource with er | srcFile
    · simp [hp, hsrc] at he
    · rcases hdn : desiredSdkFilename srcFile with er | srcName
      · simp [hp, hsrc, hdn] at he
      · rcases hbin : w.pypiBinary with er | binFile
        · simp [hp, hsrc, hdn, hbin] at he
          simp [he, isFsEvent]
        · rcases hdb : desiredSdkFilename binFile with er | binName
          · simp [hp, hsrc, hdn, hbin, hdb] at he
            simp [he, isFsEvent]
          · simp [hp, hsrc, hdn, hbin, hdb] at he
            rcases he with he | he <;> simp [he, isFsEvent]
  · by_cases hrem : isRemotePath s = true
    · by_cases hdl : w.dlOk s = true
      · rcases hdn : desiredSdkFilename s with er | name
        · simp [hp, hrem, hdl, hdn] at he
          simp [he, isFsEvent]
        · simp [hp, hrem, hdl, hdn] at he
          rcases he with he | he <;> simp [he, isFsEvent]
      · simp [hp, hrem, hdl] at he
        simp [he, isFsEvent]
    · simp [hp, hrem] at he

theorem sdkStep_trace_fs (opts : Options) (w : World) (loc : String) :
    ∀ e ∈ (sdkStep opts w loc).1, isFsEvent e = true := by
  intro e he
  unfold sdkStep at he
  split at he
  · simp at he
  · split at he
    · exact stageBeamSdk_trace_fs w loc _ e he
    · split at he
      · simp at he
      · split at he
        · split at he
          · simp at he
          · simp at he
            simp [he, isFsEvent]
        · split at he
          · simp at he
          · split at he
            · simp at he
            · simp at he

theorem workerJarStep_trace_fs (opts : Options) (w : World) (loc : String) :
    ∀ e ∈ (workerJarStep opts w loc).1, isFsEvent e = true := by
  intro e he
  unfold workerJarStep at he
  rcases hwo : opts.dataflow_worker_jar with _ | j
  · rw [hwo] at he; simp at he
  · rw [hwo] at he
    simp at he
    simp [he, isFsEvent]

theorem seqStep_trace_sub (a b : List Event × Except String (List String)) :
    ∀ e ∈ (seqStep a b).1, e ∈ a.1 ∨ e ∈ b.1 := by
  intro e he
  rcases a with ⟨tr, r⟩
  cases r with
  | error er => simp [seqStep] at he; left; exact he
  | ok rs =>
    rcases b with ⟨tr2, r2⟩
    cases r2 with
    | error er => simp [seqStep] at he; exact he.imp id id
    | ok rs2 => simp [seqStep] at he; exact he.imp id id

theorem seqStep_isOk (a b : List Event × Except String (List String)) :
    isOkE (seqStep a b).2 = (isOkE a.2 && isOkE b.2) := by
  rcases a with ⟨tr, r⟩
  cases r with
  | error er => simp [seqStep, isOkE]
  | ok rs =>
    rcases b with ⟨tr2, r2⟩
    cases r2 with
    | error er => simp [seqStep, isOkE]
    | ok rs2 => simp [seqStep, isOkE]

theorem allSteps_trace_fs (opts : Options) (w : World) (loc : String) :
    ∀ e ∈ (allSteps opts w loc).1, isFsEvent e = true := by
  intro e he
  unfold allSteps at he
  rcases seqStep_trace_sub _ _ e he with h | h
  · exact requirementsStep_trace_fs opts w loc e h
  rcases seqStep_trace_sub _ _ e h with h | h
  · exact setupStep_trace_fs opts w loc e h
  rcases seqStep_trace_sub _ _ e h with h | h
  · exact extraStep_trace_fs opts w loc e h
  rcases seqStep_trace_sub _ _ e h with h | h
  · exact jarStep_trace_fs opts w loc e h
  rcases seqStep_trace_sub _ _ e h with h | h
  · exact sessionStep_trace_fs opts w loc e h
  rcases seqStep_trace_sub _ _ e h with h | h
  · exact sdkStep_trace_fs opts w loc e h
  · exact workerJarStep_trace_fs opts w loc e h

/-! ## C2, C4, C5: claims about `stage_job_resources` -/

/-- Unfolding of `stage_job_resources` at a present staging location. -/
theorem stageJobResources_some (opts : Options) (w : World) (loc : String) :
    stageJobResources opts w (some loc) =
      (match allSteps opts w loc with
        | (tr, .error e) => (tr, .error e)
        | (tr, .ok rs) => (tr ++ [Event.rmtree w.tempDir, Event.commit], .ok rs)) := rfl

/-- C2 (counterexample): a call whose requirements file does not exist exits
with an error and an empty event trace — in particular without ever removing
the temp directory owned by the call, so the temp directory is not removed
on every exit path. -/
theorem C2_counterexample :
    (stageJobResources { requirements_file := some "missing.txt" } {} (some "/st")).1 = [] ∧
    isOkE (stageJobResources { requirements_file := some "missing.txt" } {}
      (some "/st")).2 = false := by
  constructor
  · decide
  · decide

/-- C2 (amended): `stage_job_resources` removes the temp directory (and then
commits the manifest) only on the normal-return path; on every error exit the
temp directory has not been removed (and nothing has been committed). -/
theorem C2_amended (opts : Options) (w : World) (loc : String) :
    (∀ tr rs, stageJobResources opts w (some loc) = (tr, .ok rs) →
        Event.rmtree w.tempDir ∈ tr ∧ Event.commit ∈ tr) ∧
    (∀ tr e, stageJobResources opts w (some loc) = (tr, .error e) →
        Event.rmtree w.tempDir ∉ tr ∧ Event.commit ∉ tr) := by
  constructor
  · intro tr rs h
    rw [stageJobResources_some] at h
    rcases ha : allSteps opts w loc with ⟨tra, ra⟩
    rw [ha] at h
    cases ra with
    | error e => simp at h
    | ok rsa =>
      simp at h
      rw [← h.1]
      constructor <;> simp
  · intro tr e h
    rw [stageJobResources_some] at h
    rcases ha : allSteps opts w loc with ⟨tra, ra⟩
    rw [ha] at h
    cases ra with
    | ok rsa => simp at h
    | error e' =>
      simp at h
      have hfs := allSteps_trace_fs opts w loc
      rw [ha] at hfs
      constructor
      · intro hc
        have := hfs _ (h.1 ▸ hc)
        simp [isFsEvent] at this
      · intro hc
        have := hfs _ (h.1 ▸ hc)
        simp [isFsEvent] at this

/-- C2 (witness): on a successful run with no optional inputs the trace ends
with the temp-dir removal and the commit. -/
theorem C2_amended_witness :
    Event.rmtree ({} : World).tempDir ∈ [Event.rmtree "/tmp/job", Event.commit] ∧
    Event.commit ∈ [Event.rmtree "/tmp/job", Event.commit] :=
  (C2_amended {} {} "/st").1 [Event.rmtree "/tmp/job", Event.commit] [] rfl

/-- C4: when `sdk_location` is `'default'` and the default Beam SDK package
cannot be obtained from PyPI, `stage_job_resources` exits with an error, the
manifest is never committed, and the failing SDK step itself stages nothing
(its event trace is empty). -/
theorem C4_default_sdk_failure (opts : Options) (w : World) (loc : String) (e : String)
    (hsdk : opts.sdk_location = some "default") (hpypi : w.pypiSource = .error e) :
    isOkE (stageJobResources opts w (some loc)).2 = false ∧
    Event.commit ∉ (stageJobResources opts w (some loc)).1 ∧
    stageBeamSdk w loc "pypi" = ([], .error e) := by
  have hbeam : stageBeamSdk w loc "pypi" = ([], .error e) := by
    unfold stageBeamSdk
    rw [if_pos rfl, hpypi]
  have hsdkStep : sdkStep opts w loc = ([], .error e) := by
    simp [sdkStep, hsdk, hbeam]
  have hnotok : isOkE (allSteps opts w loc).2 = false := by
    unfold allSteps
    rw [seqStep_isOk, seqStep_isOk, seqStep_isOk, seqStep_isOk, seqStep_isOk, seqStep_isOk,
      hsdkStep]
    simp [isOkE]
  refine ⟨?_, ?_, hbeam⟩
  · rw [stageJobResources_some]
    rcases ha : allSteps opts w loc with ⟨tra, ra⟩
    cases ra with
    | ok rsa => rw [ha] at hnotok; simp [isOkE] at hnotok
    | error e' => simp [isOkE]
  · rw [stageJobResources_some]
    rcases ha : allSteps opts w loc with ⟨tra, ra⟩
    cases ra with
    | ok rsa => rw [ha] at hnotok; simp [isOkE] at hnotok
    | error e' =>
      show Event.commit ∉ tra
      intro hc
      have hfs := allSteps_trace_fs opts w loc
      rw [ha] at hfs
      have := hfs _ hc
      simp [isFsEvent] at this

/-- C4 (witness): the theorem applied to a request whose only input is
`sdk_location = 'default'`, in a world where PyPI is unavailable. -/
theorem C4_default_sdk_failure_witness :
    isOkE (stageJobResources { sdk_location := some "default" } {} (some "/st")).2 = false ∧
    Event.commit ∉ (stageJobResources { sdk_location := some "default" } {} (some "/st")).1 ∧
    stageBeamSdk {} "/st" "pypi" = ([], .error "pypi unavailable") :=
  C4_default_sdk_failure { sdk_location := some "default" } {} "/st" "pypi unavailable"
    rfl rfl

/-- C5 (counterexample): with a requirements cache directory that contains a
file named `.hidden` after the download step, the staged resource list has no
entry for it (the code stages `glob('*')` matches, which skip dotfiles), so
the list does not contain one entry per file present in the cache
directory. -/
theorem C5_counterexample :
    (stageJobResources { requirements_file := some "r.txt" }
        { files := ["r.txt"], reqCacheListing := [".hidden", "pkg1.tar.gz"] }
        (some "/st")).2 = .ok ["requirements.txt", "pkg1.tar.gz"] ∧
    ".hidden" ∉ ["requirements.txt", "pkg1.tar.gz"] := by
  constructor
  · rfl
  · decide

/-- C5 (amended): for every request whose only optional input is an existing
requirements file, and whose `pip download` succeeds, the staged resource
list is exactly `requirements.txt` followed by one entry per non-hidden file
(name not beginning with `.`) present in the requirements cache directory
after the download step. -/
theorem C5_amended (rf : String) (cache : List String) (loc : String) :
    (stageJobResources { requirements_file := some rf }
        { files := [rf], reqCacheListing := cache } (some loc)).2 =
      .ok (REQUIREMENTS_FILE :: cache.filter (fun n => !strStartsWith n ".")) := by
  simp [stageJobResources, allSteps, seqStep, requirementsStep, setupStep, extraStep,
    jarStep, sessionStep, sdkStep, workerJarStep]

/-! ## C6: the retried `pip download` of `_populate_requirements_cache`
(stager.py lines 87-91 and 480-504) -/

/-- A Python exception as seen by the retry filter. -/
inductive PyErr
  | calledProcessError (returncode : Int)
  | other (msg : String)
deriving DecidableEq, Repr

/-- `retry_on_non_zero_exit` (stager.py lines 87-91): retry exactly when the
exception is a `CalledProcessError` with a non-zero return code. -/
def retry_on_non_zero_exit : PyErr → Bool
  | .calledProcessError rc => decide (rc ≠ 0)
  | .other _ => false

/-- Result of running an operation under the retry decorator: how many
attempts were made, the backoff delays slept between them, and the final
outcome. -/
structure RetryRun where
  attempts : Nat
  delays : List Nat
  result : Except PyErr Unit
deriving Repr

/-- Modelled from the spec: the retry combinator
`apache_beam.utils.retry.with_exponential_backoff` is repository code that is
not under `src/`.  Per the spec it runs the operation up to 4 attempts in
total with exponential backoff between attempts, retrying only failures
accepted by the retry filter.  `os k` is the outcome of attempt `k`, `d` the
initial backoff delay, `i` the index of the current attempt and `fuel` the
number of attempts still allowed. -/
def retryAux (f : PyErr → Bool) (os : Nat → Except PyErr Unit) (d : Nat) :
    Nat → Nat → RetryRun
  | i, 0 => ⟨i, [], .error (.other "no attempts left")⟩
  | i, fuel + 1 =>
    match os i with
    | .ok u => ⟨i + 1, [], .ok u⟩
    | .error e =>
      if f e = true ∧ fuel ≠ 0 then
        let r := retryAux f os d (i + 1) fuel
        ⟨r.attempts, d * 2 ^ i :: r.delays, r.result⟩
      else ⟨i + 1, [], .error e⟩

/-- `_populate_requirements_cache` under its decorator
`@retry.with_exponential_backoff(num_retries=4, retry_filter=retry_on_non_zero_exit)`:
the spec-modelled 4-attempt retry of the `pip download` subprocess. -/
def populateRequirementsCacheRetried (os : Nat → Except PyErr Unit) (d : Nat) : RetryRun :=
  retryAux retry_on_non_zero_exit os d 0 4

theorem retryAux_spec (f : PyErr → Bool) (os : Nat → Except PyErr Unit) (d : Nat) :
    ∀ fuel i,
      i + 1 ≤ (retryAux f os d i (fuel + 1)).attempts ∧
      (retryAux f os d i (fuel + 1)).attempts ≤ i + fuel + 1 ∧
      (∀ j, i ≤ j → j + 1 < (retryAux f os d i (fuel + 1)).attempts →
        ∃ e, os j = .error e ∧ f e = true) ∧
      (retryAux f os d i (fuel + 1)).delays =
        (List.range' i ((retryAux f os d i (fuel + 1)).attempts - 1 - i)).map
          (fun k => d * 2 ^ k) := by
  intro fuel
  induction fuel with
  | zero =>
    intro i
    rcases ho : os i with e | u
    · simp only [retryAux, ho]
      have hcond : ¬ (f e = true ∧ (0 : Nat) ≠ 0) := by simp
      rw [if_neg hcond]
      refine ⟨le_refl _, le_refl _, ?_, ?_⟩
      · intro j hij hlt
        simp at hlt
        omega
      · simp
    · simp only [retryAux, ho]
      refine ⟨le_refl _, le_refl _, ?_, ?_⟩
      · intro j hij hlt
        simp at hlt
        omega
      · simp
  | succ fuel ih =>
    intro i
    rcases ho : os i with e | u
    · by_cases hf : f e = true
      · have hcond : f e = true ∧ fuel + 1 ≠ 0 := ⟨hf, by omega⟩
        have hr : retryAux f os d i (fuel + 1 + 1) =
            ⟨(retryAux f os d (i + 1) (fuel + 1)).attempts,
              d * 2 ^ i :: (retryAux f os d (i + 1) (fuel + 1)).delays,
              (retryAux f os d (i + 1) (fuel + 1)).result⟩ := by
          simp only [retryAux, ho]
          rw [if_pos hcond]
        rcases ih (i + 1) with ⟨h1, h2, h3, h4⟩
        rw [hr]
        refine ⟨by simp; omega, by simp; omega, ?_, ?_⟩
        · intro j hij hlt
          simp at hlt
          by_cases hji : j = i
          · subst hji
            exact ⟨e, ho, hf⟩
          · exact h3 j (by omega) hlt
        · simp only []
          have hge : i + 1 + 1 ≤ (retryAux f os d (i + 1) (fuel + 1)).attempts := by omega
          have harith : (retryAux f os d (i + 1) (fuel + 1)).attempts - 1 - i =
              ((retryAux f os d (i + 1) (fuel + 1)).attempts - 1 - (i + 1)) + 1 := by omega
          rw [harith, List.range'_succ, List.map_cons, h4]
      · have hcond : ¬ (f e = true ∧ fuel + 1 ≠ 0) := by
          intro hc
          exact hf hc.1
        have hr : retryAux f os d i (fuel + 1 + 1) = ⟨i + 1, [], .error e⟩ := by
          simp only [retryAux, ho]
          rw [if_neg hcond]
        rw [hr]
        refine ⟨le_refl _, (by omega : i + 1 ≤ i + (fuel + 1) + 1), ?_, by simp⟩
        intro j hij hlt
        simp at hlt
        omega
    · have hr : retryAux f os d i (fuel + 1 + 1) = ⟨i + 1, [], .ok u⟩ := by
        simp only [retryAux, ho]
      rw [hr]
      refine ⟨le_refl _, (by omega : i + 1 ≤ i + (fuel + 1) + 1), ?_, by simp⟩
      intro j hij hlt
      simp at hlt
      omega

/-- C6: the retried requirements download makes between 1 and 4 attempts in
total; every attempt that was followed by another one failed as a subprocess
exit with a non-zero return code (so nothing else is ever retried); and the
delays slept between consecutive attempts grow exponentially
(`d, 2d, 4d, ...`). -/
theorem C6_retry (os : Nat → Except PyErr Unit) (d : Nat) :
    1 ≤ (populateRequirementsCacheRetried os d).attempts ∧
    (populateRequirementsCacheRetried os d).attempts ≤ 4 ∧
    (∀ j, j + 1 < (populateRequirementsCacheRetried os d).attempts →
      ∃ rc, os j = .error (.calledProcessError rc) ∧ rc ≠ 0) ∧
    (populateRequirementsCacheRetried os d).delays =
      (List.range ((populateRequirementsCacheRetried os d).attempts - 1)).map
        (fun k => d * 2 ^ k) := by
  rcases retryAux_spec retry_on_non_zero_exit os d 3 0 with ⟨h1, h2, h3, h4⟩
  refine ⟨h1, by simpa using h2, ?_, ?_⟩
  · intro j hlt
    rcases h3 j (by omega) hlt with ⟨e, he, hf⟩
    cases e with
    | calledProcessError rc =>
      refine ⟨rc, he, ?_⟩
      simpa [retry_on_non_zero_exit] using hf
    | other m => simp [retry_on_non_zero_exit] at hf
  · rw [List.range_eq_range']
    simpa using h4

/-- C6 (witness): a run whose first attempt exits with code 1 and whose
second attempt succeeds. -/
theorem C6_retry_witness :
    1 ≤ (populateRequirementsCacheRetried
        (fun k => if k = 0 then .error (.calledProcessError 1) else .ok ()) 5).attempts ∧
    (populateRequirementsCacheRetried
        (fun k => if k = 0 then .error (.calledProcessError 1) else .ok ()) 5).attempts ≤ 4 ∧
    (∀ j, j + 1 < (populateRequirementsCacheRetried
        (fun k => if k = 0 then .error (.calledProcessError 1) else .ok ()) 5).attempts →
      ∃ rc, (fun k => if k = 0 then .error (.calledProcessError 1) else .ok ()) j =
          Except.error (PyErr.calledProcessError rc) ∧ rc ≠ 0) ∧
    (populateRequirementsCacheRetried
        (fun k => if k = 0 then .error (.calledProcessError 1) else .ok ()) 5).delays =
      (List.range ((populateRequirementsCacheRetried
        (fun k => if k = 0 then .error (.calledProcessError 1) else .ok ()) 5).attempts - 1)).map
        (fun k => 5 * 2 ^ k) :=
  C6_retry (fun k => if k = 0 then .error (.calledProcessError 1) else .ok ()) 5

end BeamStager

namespace PullLicenses

/-! ## `pull_licenses_py.py`: `pull_from_url` (lines 70-118) and the main
dependency loop (lines 121-153)

The `dep_urls_py.yaml` override entry for a dependency: the `license` field is
`'skip'`, `'manual'`, or a download URL, and `notice` is an optional URL. -/

inductive LicenseSource
  | skip
  | manual
  | fromUrl (url : String)
deriving DecidableEq, Repr

structure DepConfig where
  license : LicenseSource
  notice : Option String := none
deriving DecidableEq, Repr

/-- The effectful collaborators of `pull_from_url`: whether the manual
license copy for a dependency succeeds and whether `wget.download` of a URL
succeeds. -/
structure LicenseWorld where
  manualCopyOk : String → Bool := fun _ => true
  wgetOk : String → Bool := fun _ => true

/-- Outcome of a Python call: a returned value or a propagated exception
(identified by its class name). -/
inductive PullResult
  | ret (b : Bool)
  | exc (e : String)
deriving DecidableEq, Repr

/-- `configs[dep]` lookup (`dep in configs.keys()`). -/
def lookupConfig (configs : List (String × DepConfig)) (dep : String) : Option DepConfig :=
  (configs.find? (fun kv => kv.1 == dep)).map (fun kv => kv.2)

/-- `pull_from_url(dep, configs)` (lines 70-118), faithfully including its
error handling: the body downloads/copies into a per-dependency temp
directory and copies the whole temp directory to the final licenses
directory only when non-empty, setting `result = True`.  When the body
raises, the `except` handler evaluates `e.decode('utf-8')` on the exception
object — which itself raises `AttributeError` before `result = False` is
executed — and the `finally` block then evaluates `return result` with
`result` unbound, raising `UnboundLocalError`, which propagates to the
caller.  Returns the outcome together with the names of the files that ended
up in the final per-dependency directory. -/
def pull_from_url (w : LicenseWorld) (configs : List (String × DepConfig))
    (dep : String) : PullResult × List String :=
  match lookupConfig configs dep with
  | none => (.ret false, [])
  | some cfg =>
    let licStep : Except Unit (List String) :=
      match cfg.license with
      | .skip => .ok []
      | .manual => if w.manualCopyOk dep then .ok ["LICENSE"] else .error ()
      | .fromUrl u => if w.wgetOk u then .ok ["LICENSE"] else .error ()
    let bodyResult : Except Unit (List String) :=
      match licStep with
      | .error _ => .error ()
      | .ok fs =>
        match cfg.notice with
        | none => .ok fs
        | some u => if w.wgetOk u then .ok (fs ++ ["NOTICE"]) else .error ()
    match bodyResult with
    | .ok tempFiles => (.ret true, tempFiles)
    | .error _ => (.exc "UnboundLocalError", [])

/-- The `tenacity` `@retry(stop=stop_after_attempt(3))` decorator around
`pull_from_url`: a returned value is passed through after one attempt; an
exception triggers re-invocation, up to 3 attempts in total, after which it
propagates.  (`pull_from_url` is deterministic in our model, so all attempts
agree.)  Returns the number of attempts made and the final outcome. -/
def pullWithRetry (w : LicenseWorld) (configs : List (String × DepConfig))
    (dep : String) : Nat × (PullResult × List String) :=
  match pull_from_url w configs dep with
  | (.ret b, fs) => (1, (.ret b, fs))
  | (.exc e, _) => (3, (.exc e, []))

/-- What the main loop (lines 134-137) records for one dependency:
`copy_license_files(dep)` succeeded, or else the outcome of
`pull_from_url(dep['Name'].lower(), ...)`. -/
structure DepOutcome where
  name : String
  copyOk : Bool
  pull : PullResult
deriving DecidableEq, Repr

/-- The loop body accumulating `no_licenses` (lines 134-137): a dependency
whose copy fails is handled by `pull_from_url`; `ret false` appends the
lowercased name, `ret true` is success, and a propagated exception aborts
the loop. -/
def collectMissing : List DepOutcome → Except String (List String)
  | [] => .ok []
  | d :: rest =>
    if d.copyOk then collectMissing rest
    else
      match d.pull with
      | .ret true => collectMissing rest
      | .ret false =>
        match collectMissing rest with
        | .ok ms => .ok (BeamStager.strLower d.name :: ms)
        | .error e => .error e
      | .exc e => .error e

/-- The abort condition of the script. -/
inductive RunError
  | exn (e : String)
  | missingLicenses (names : List String)
deriving DecidableEq, Repr

/-- The `__main__` block after the loop (lines 139-153): raise a fatal error
listing `no_licenses` when non-empty, otherwise finish normally. -/
def licenseMain (deps : List DepOutcome) : Except RunError Unit :=
  match collectMissing deps with
  | .error e => .error (.exn e)
  | .ok [] => .ok ()
  | .ok ms => .error (.missingLicenses ms)

/-- Whether a pull outcome is a propagated exception. -/
def isExc : PullResult → Bool
  | .exc _ => true
  | .ret _ => false

/-- A dependency counts as license-less when its copy failed and its pull
returned `False`. -/
def depMissing (d : DepOutcome) : Bool :=
  !d.copyOk && (match d.pull with | .ret false => true | _ => false)

theorem collectMissing_ok (deps : List DepOutcome)
    (hnoexc : ∀ d ∈ deps, d.copyOk = false → isExc d.pull = false) :
    collectMissing deps =
      .ok ((deps.filter depMissing).map (fun d => BeamStager.strLower d.name)) := by
  induction deps with
  | nil => simp [collectMissing]
  | cons d rest ih =>
    have hrest := ih (fun q hq hc => hnoexc q (by simp [hq]) hc)
    cases hcb : d.copyOk with
    | true => simp [collectMissing, hcb, List.filter_cons, depMissing, hrest]
    | false =>
      cases hp : d.pull with
      | ret b =>
        cases b with
        | true => simp [collectMissing, hcb, hp, List.filter_cons, depMissing, hrest]
        | false => simp [collectMissing, hcb, hp, List.filter_cons, depMissing, hrest]
      | exc e =>
        have := hnoexc d (by simp) hcb
        rw [hp] at this
        simp [isExc] at this

/-- C7: provided no `pull_from_url` call propagates an exception, the license
run aborts with a fatal error listing exactly the lowercased names of the
dependencies for which neither the pip-licenses copy nor the override pull
succeeded, in dependency order; when every dependency obtained a license the
run completes without error. -/
theorem C7_missing_abort (deps : List DepOutcome)
    (hnoexc : ∀ d ∈ deps, d.copyOk = false → isExc d.pull = false) :
    licenseMain deps =
      (if deps.filter depMissing = [] then .ok ()
        else .error (.missingLicenses
          ((deps.filter depMissing).map (fun d => BeamStager.strLower d.name)))) := by
  have hcm := collectMissing_ok deps hnoexc
  unfold licenseMain
  rw [hcm]
  rcases hf : deps.filter depMissing with _ | ⟨d, ds⟩
  · simp
  · simp

/-- C7 (witness): one dependency with no usable license aborts the run with
its lowercased name; the theorem is applied at a concrete two-dependency
list. -/
theorem C7_missing_abort_witness :
    licenseMain [⟨"Foo", false, .ret false⟩, ⟨"Bar", true, .ret false⟩] =
      (if [(⟨"Foo", false, .ret false⟩ : DepOutcome),
            ⟨"Bar", true, .ret false⟩].filter depMissing = [] then .ok ()
        else .error (.missingLicenses
          (([(⟨"Foo", false, .ret false⟩ : DepOutcome),
              ⟨"Bar", true, .ret false⟩].filter depMissing).map
            (fun d => BeamStager.strLower d.name)))) :=
  C7_missing_abort [⟨"Foo", false, .ret false⟩, ⟨"Bar", true, .ret false⟩] (by decide)

/-- C9: evaluated at a dependency whose configured license URL fails to
download, `pull_from_url` does not return a boolean: the broken `except`
handler (`e.decode` on an exception object) and the `return result` in the
`finally` block (with `result` unbound) raise `UnboundLocalError`, which the
tenacity decorator retries — 3 attempts in total — and then propagates,
aborting the dependency loop of `__main__`. -/
theorem C9_pull_propagates :
    pull_from_url { wgetOk := fun _ => false }
        [("foo", ⟨.fromUrl "http://x/LICENSE", none⟩)] "foo" =
      (.exc "UnboundLocalError", []) ∧
    pullWithRetry { wgetOk := fun _ => false }
        [("foo", ⟨.fromUrl "http://x/LICENSE", none⟩)] "foo" =
      (3, (.exc "UnboundLocalError", [])) ∧
    licenseMain [⟨"foo", false, .exc "UnboundLocalError"⟩] =
      .error (.exn "UnboundLocalError") := by
  refine ⟨?_, ?_, ?_⟩
  · decide
  · decide
  · rfl

/-- C10: a dependency found in the override config with license `'skip'`
(whose optional notice download, when configured, succeeds) is handled
successfully: `pull_from_url` returns `True`, no `LICENSE` file is written
to its output directory, and the main loop does not report it as missing a
license even when the pip-licenses copy failed. -/
theorem C10_skip_handled (w : LicenseWorld) (configs : List (String × DepConfig))
    (dep : String) (cfg : DepConfig)
    (hlook : lookupConfig configs dep = some cfg)
    (hskip : cfg.license = .skip)
    (hnotice : ∀ u, cfg.notice = some u → w.wgetOk u = true) :
    (pull_from_url w configs dep).1 = .ret true ∧
    "LICENSE" ∉ (pull_from_url w configs dep).2 ∧
    licenseMain [⟨dep, false, (pull_from_url w configs dep).1⟩] = .ok () := by
  have hpull : pull_from_url w configs dep =
      (.ret true, match cfg.notice with | none => [] | some _ => ["NOTICE"]) := by
    unfold pull_from_url
    rw [hlook]
    rcases hn : cfg.notice with _ | u
    · simp [hskip, hn]
    · have hw := hnotice u hn
      simp [hskip, hn, hw]
  refine ⟨by rw [hpull], ?_, ?_⟩
  · rw [hpull]
    rcases hn : cfg.notice with _ | u <;> simp
  · rw [hpull]
    simp [licenseMain, collectMissing]

/-- C10 (witness): the theorem applied to a concrete config entry with
license `'skip'` and a notice URL. -/
theorem C10_skip_handled_witness :
    (pull_from_url {} [("dep1", ⟨.skip, some "http://n"⟩)] "dep1").1 = .ret true ∧
    "LICENSE" ∉ (pull_from_url {} [("dep1", ⟨.skip, some "http://n"⟩)] "dep1").2 ∧
    licenseMain [⟨"dep1", false,
      (pull_from_url {} [("dep1", ⟨.skip, some "http://n"⟩)] "dep1").1⟩] = .ok () :=
  C10_skip_handled {} [("dep1", ⟨.skip, some "http://n"⟩)] "dep1" ⟨.skip, some "http://n"⟩
    (by decide) rfl (fun _ _ => rfl)

end PullLicenses
